import Mathlib

/-!
Verification of the client-side batch-operations subsystem of the
Student-attendance-client repository (src/services/api.js).

The JavaScript source is shallowly embedded: JS primitive values that can
appear as student ids or update-payload fields become the inductive `JsVal`;
response bodies become the inductive `Json`; the concurrency-bounded worker
pool of `batchUpdateStudentsClient` becomes a small-step system over
`RunState`, driven by an explicit `schedule` that picks which in-flight
request completes next (modelling the event loop's nondeterministic
completion order); per-item network outcomes are injected as a function
`String → Option JsError` (none = the promise resolves, some e = it rejects
with error e).  Numeric coercion (`Number(s)`) is modelled on integral
values, which covers every numeric literal appearing in the code and spec.
-/

namespace StudentBatch

/-- A JavaScript primitive value as it can appear in `studentIds` entries or
in the `updates` payload fields of `batchUpdateStudentsClient`. -/
inductive JsVal where
  | null
  | undefined
  | num (n : Int)
  | str (s : String)
deriving DecidableEq, Repr, Inhabited

/-- JS `String(v)` on the primitive values above (used by
`(studentIds || []).map(String)` and `String(d)` for the division field). -/
def jsString : JsVal → String
  | .null => "null"
  | .undefined => "undefined"
  | .num n => toString n
  | .str s => s

/-- JS whitespace, as stripped by `String.prototype.trim` and by `Number`
coercion (the common subset relevant here). -/
def jsWhitespace (c : Char) : Bool :=
  c = ' ' || c = '\t' || c = '\n' || c = '\r'

/-- JS `s.trim()`: strip leading and trailing whitespace. -/
def jsTrim (s : String) : String :=
  String.mk (((s.toList.dropWhile jsWhitespace).reverse.dropWhile
    jsWhitespace).reverse)

/-- Fold a list of decimal digit characters into a number; `none` if a
non-digit appears. -/
def digitsToNat (cs : List Char) : Option Nat :=
  cs.foldl
    (fun acc c =>
      match acc with
      | none => none
      | some n => if c.isDigit then some (n * 10 + (c.toNat - 48)) else none)
    (some 0)

/-- Decimal integer parsing, the integral fragment of JS `Number(string)`
after trimming: optional sign followed by decimal digits; `none` models NaN. -/
def parseDecInt (s : String) : Option Int :=
  match s.toList with
  | [] => none
  | '-' :: rest =>
    if rest = [] then none else (digitsToNat rest).map (fun n => -(n : Int))
  | '+' :: rest =>
    if rest = [] then none else (digitsToNat rest).map (fun n => (n : Int))
  | cs => (digitsToNat cs).map (fun n => (n : Int))

/-- JS `Number(v)` on `JsVal` (integral fragment); `none` models NaN.
`Number(null) = 0`, `Number(undefined) = NaN`, strings are trimmed and the
empty string coerces to 0. -/
def jsToNumber : JsVal → Option Int
  | .num n => some n
  | .null => some 0
  | .undefined => none
  | .str s =>
    let t := jsTrim s
    if t = "" then some 0 else parseDecInt t

/-- The error object a rejected axios call delivers: `responseData` models a
present-and-truthy `err.response.data`, `message` a present-and-truthy
`err.message` (absent-or-falsy is `none` in both cases). -/
structure JsError where
  responseData : Option String := none
  message : Option String := none
deriving DecidableEq, Repr

/-- The value stored in a `failed` entry: the result of the JS expression
`err?.response?.data || err?.message || err` (or the raw error in the
batch-remove variant). -/
inductive ErrPayload where
  | data (d : String)
  | msg (m : String)
  | raw (e : JsError)
deriving DecidableEq, Repr

/-- `err?.response?.data || err?.message || err` from the catch blocks of
`batchUpdateStudentsClient` and `batchDeleteStudentsClient`. -/
def extractErr (e : JsError) : ErrPayload :=
  match e.responseData with
  | some d => .data d
  | none =>
    match e.message with
    | some m => .msg m
    | none => .raw e

/-- The `updates` argument of `batchUpdateStudentsClient` when it is a real
object: `semester`/`division` are `some v` exactly when the object has that
own property (with value `v`, possibly `JsVal.undefined`); `others` carries any
further properties, which the source never reads. -/
structure Updates where
  semester : Option JsVal := none
  division : Option JsVal := none
  others : List (String × JsVal) := []
deriving DecidableEq, Repr

/-- The sanitized `allowed` object.  `semester = some v` models an own
property `semester` with value `v`; note the source can store `undefined`
there (`allowed.semester = ... ? undefined : Number(s)`), which still counts
as an own property for `Object.keys`. -/
structure Allowed where
  semester : Option JsVal := none
  division : Option String := none
deriving DecidableEq, Repr

/-- The sanitization block of `batchUpdateStudentsClient` (api.js lines
128-145).  `updates = none` models a null / non-object argument, skipped by
the `updates && typeof updates === "object"` guard. -/
def sanitize (updates : Option Updates) : Allowed :=
  match updates with
  | none => {}
  | some u =>
    let a : Allowed := {}
    let a :=
      match u.semester with
      | none => a
      | some s =>
        if s = JsVal.str "" ∨ s = JsVal.null ∨ s = JsVal.undefined then
          { a with semester := some JsVal.undefined }
        else
          match jsToNumber s with
          | some n => { a with semester := some (JsVal.num n) }
          | none => a
    match u.division with
    | none => a
    | some d =>
      if d ≠ JsVal.null ∧ d ≠ JsVal.undefined ∧ jsTrim (jsString d) ≠ "" then
        { a with division := some (jsString d) }
      else a

/-- `Object.keys(allowed).length` for the sanitized object. -/
def sanitizedCount (a : Allowed) : Nat :=
  (if a.semester.isSome then 1 else 0) + (if a.division.isSome then 1 else 0)

/-- One insertion step of `new Set(...)` construction: append the element
unless already present (JS `Set` keeps first occurrence, insertion order). -/
def insertUnique (acc : List String) (x : String) : List String :=
  if x ∈ acc then acc else acc ++ [x]

/-- `Array.from(new Set(xs))`: order-preserving deduplication. -/
def dedup (xs : List String) : List String :=
  xs.foldl insertUnique []

/-! ### JSON response bodies and the response normalizers -/

/-- A JSON-ish JavaScript value as delivered in `res.data` by axios
(`undefined` is included so that property access can be expressed totally). -/
inductive Json where
  | null
  | undefined
  | num (n : Int)
  | str (s : String)
  | arr (elems : List Json)
  | obj (fields : List (String × Json))
deriving Inhabited, BEq

/-- Look an object field up; missing properties are `undefined`. -/
def lookupField (fields : List (String × Json)) (k : String) : Json :=
  match fields.find? (fun p => p.1 == k) with
  | some p => p.2
  | none => .undefined

/-- JS optional chaining `v?.k`: `undefined` when `v` is null/undefined,
plain property access otherwise (non-objects have no own properties here). -/
def optChain : Json → String → Json
  | .obj fs, k => lookupField fs k
  | _, _ => .undefined

/-- JS plain property access `v.k`: throws a `TypeError` when `v` is
null/undefined, otherwise behaves like `optChain`. -/
def propAccess : Json → String → Except String Json
  | .null, _ => .error "TypeError: cannot read properties of null"
  | .undefined, _ => .error "TypeError: cannot read properties of undefined"
  | .obj fs, k => .ok (lookupField fs k)
  | _, _ => .ok .undefined

/-- `Array.isArray(v)` combined with extraction of the underlying list. -/
def asArray : Json → Option (List Json)
  | .arr xs => some xs
  | _ => none

/-- JS truthiness on `Json` values (objects and arrays, even empty, are
truthy; `0`, `""`, null and undefined are falsy). -/
def truthy : Json → Bool
  | .null => false
  | .undefined => false
  | .num n => n != 0
  | .str s => s != ""
  | .arr _ => true
  | .obj _ => true

/-- JS `a || b`. -/
def jsOr (a b : Json) : Json :=
  if truthy a then a else b

/-- The normalization step of `getStudents` (api.js lines 78-86), applied to
the response body `res.data`:
`if (Array.isArray(res.data?.data)) return res.data.data; ...` with
candidates `data`, `students`, `data.students`, defaulting to `[]`. -/
def getStudents (body : Json) : List Json :=
  match asArray (optChain body "data") with
  | some xs => xs
  | none =>
    match asArray (optChain body "students") with
    | some xs => xs
    | none =>
      match asArray (optChain (optChain body "data") "students") with
      | some xs => xs
      | none => []

/-- The normalization step of `getClasses` (api.js lines 38-43):
`res.data?.data || res.data?.classes || res.data?.data?.classes || []`. -/
def getClasses (body : Json) : Json :=
  jsOr (optChain body "data")
    (jsOr (optChain body "classes")
      (jsOr (optChain (optChain body "data") "classes") (.arr [])))

/-- The normalization step of `getStudentById` (api.js lines 89-92):
`return res.data.data?.student || res.data.student;` — note the two plain
(non-optional) accesses on `res.data`, which throw when the body is
null/undefined. -/
def getStudentById (body : Json) : Except String Json :=
  match propAccess body "data" with
  | .error e => .error e
  | .ok d =>
    match propAccess body "student" with
    | .error e => .error e
    | .ok st => .ok (jsOr (optChain d "student") st)

/-! ### The concurrency-bounded batch runner -/

/-- One `{ done, total }` progress-callback invocation. -/
structure Progress where
  done : Nat
  total : Nat
deriving DecidableEq, Repr

/-- The `results` object: `{ success: [], failed: [] }`. -/
structure BatchResult where
  success : List String
  failed : List (String × ErrPayload)
deriving DecidableEq, Repr

/-- The shared mutable state of one `batchUpdateStudentsClient` invocation:
the remaining `queue`, the ids currently awaited inside some worker's
`await updateStudent(id, allowed)` (`inFlight`), the two result lists, the
`done` counter and the trace of progress-callback invocations. -/
structure RunState where
  queue : List String
  inFlight : List String
  success : List String
  failed : List (String × ErrPayload)
  done : Nat
  progress : List Progress
deriving Repr

/-- Choose the `c`-th in-flight operation (clamped to the last one when `c`
is out of range); returns it together with the remaining in-flight list.
`none` only on an empty list.  The universally quantified choice models the
event loop resolving awaited promises in an arbitrary order. -/
def pick {α : Type} : List α → Nat → Option (α × List α)
  | [], _ => none
  | x :: xs, 0 => some (x, xs)
  | x :: xs, Nat.succ n =>
    match pick xs n with
    | some (y, ys) => some (y, x :: ys)
    | none => some (x, xs)

/-- The synchronous continuation a worker runs when its awaited
`updateStudent(id, allowed)` settles: push to `success` or `failed`
(extracting `err?.response?.data || err?.message || err`), increment `done`,
invoke the progress callback with `{ done, total }`. -/
def recordOutcome (outcome : String → Option JsError) (total : Nat)
    (s : RunState) (id : String) (rest : List String) : RunState :=
  match outcome id with
  | none =>
    { s with inFlight := rest, success := s.success ++ [id],
             done := s.done + 1,
             progress := s.progress ++ [⟨s.done + 1, total⟩] }
  | some e =>
    { s with inFlight := rest, failed := s.failed ++ [(id, extractErr e)],
             done := s.done + 1,
             progress := s.progress ++ [⟨s.done + 1, total⟩] }

/-- After recording, the same worker loops: `while (queue.length)` pops the
next id (`queue.shift()`) and starts awaiting it; with an empty queue the
worker exits. -/
def refill (s : RunState) : RunState :=
  match s.queue with
  | [] => s
  | q :: qs => { s with queue := qs, inFlight := s.inFlight ++ [q] }

/-- One atomic event-loop step: the scheduler picks which in-flight request
settles; that worker records the outcome and refills from the queue.  All of
this is synchronous JS code between two suspension points, hence atomic. -/
def step (outcome : String → Option JsError) (total : Nat)
    (s : RunState) (c : Nat) : RunState :=
  match pick s.inFlight c with
  | none => s
  | some (id, rest) => refill (recordOutcome outcome total s id rest)

/-- Run the event loop along an explicit schedule of completion choices. -/
def runSteps (outcome : String → Option JsError) (total : Nat) :
    RunState → List Nat → RunState
  | s, [] => s
  | s, c :: cs => runSteps outcome total (step outcome total s c) cs

/-- The state right after `Promise.all(workers)` has spawned
`min(concurrency, ids.length)` workers: each worker synchronously popped one
id from the shared queue and is awaiting it. -/
def initState (ids : List String) (numWorkers : Nat) : RunState :=
  { queue := ids.drop numWorkers, inFlight := ids.take numWorkers,
    success := [], failed := [], done := 0, progress := [] }

/-- `batchUpdateStudentsClient(studentIds, updates, {concurrency, onProgress})`
(api.js lines 123-179).  `outcome` is the injected behaviour of each
`updateStudent(id, allowed)` call; `schedule` resolves the completion order
of concurrently in-flight calls.  The result carries the `results` object
and the trace of progress-callback invocations (an absent callback simply
discards the trace: `onProgress?.()` is a no-op). -/
def batchUpdateStudentsClient (studentIds : List JsVal)
    (updates : Option Updates) (concurrency : Int)
    (outcome : String → Option JsError) (schedule : List Nat) :
    Except String (BatchResult × List Progress) :=
  let allowed := sanitize updates
  if sanitizedCount allowed = 0 then
    .error "No valid fields to update. Only semester and division are allowed."
  else
    let ids := dedup (studentIds.map jsString)
    let numWorkers := (min concurrency (ids.length : Int)).toNat
    let final := runSteps outcome ids.length (initState ids numWorkers) schedule
    .ok (⟨final.success, final.failed⟩, final.progress)

/-- `batchDeleteStudentsClient(studentIds, {onProgress})` (api.js lines
182-203).  `bulkOutcome` is the behaviour of the single
`deleteStudentsBulk(ids)` call (`none` = resolve, `some e` = reject). -/
def batchDeleteStudentsClient (studentIds : List JsVal)
    (bulkOutcome : Option JsError) :
    Except String (BatchResult × List Progress) :=
  let ids := dedup (studentIds.map jsString)
  if ids.length = 0 then .ok (⟨[], []⟩, [])
  else
    match bulkOutcome with
    | none => .ok (⟨ids, []⟩, [⟨ids.length, ids.length⟩])
    | some e =>
      .ok (⟨[], ids.map (fun id => (id, extractErr e))⟩,
           [⟨ids.length, ids.length⟩])

/-- `batchRemoveStudentsFromClassClient(classId, studentIds, {onProgress})`
(api.js lines 219-239).  The failed entries store the raw error
(`{ id, error: err }`), and the single progress report happens after the
try/catch on both paths. -/
def batchRemoveStudentsFromClassClient (classId : String)
    (studentIds : List JsVal) (bulkOutcome : Option JsError) :
    Except String (BatchResult × List Progress) :=
  let _ := classId
  let ids := dedup (studentIds.map jsString)
  if ids.length = 0 then .ok (⟨[], []⟩, [])
  else
    let results : BatchResult :=
      match bulkOutcome with
      | none => ⟨ids, []⟩
      | some e => ⟨[], ids.map (fun id => (id, ErrPayload.raw e))⟩
    .ok (results, [⟨ids.length, ids.length⟩])

/-- Whether an async entry point resolved (as opposed to rejecting). -/
def isResolved {α : Type} : Except String α → Bool
  | .ok _ => true
  | .error _ => false

/-- The `BatchResult` of a resolved batch call (defaulting to empty). -/
def batchResultOf : Except String (BatchResult × List Progress) → BatchResult
  | .ok r => r.1
  | .error _ => ⟨[], []⟩

/-- The trace of progress-callback invocations of a resolved batch call. -/
def runTrace : Except String (BatchResult × List Progress) → List Progress
  | .ok r => r.2
  | .error _ => []

/-- Whether a `JsVal` is a JS number. -/
def isNumVal : JsVal → Bool
  | .num _ => true
  | _ => false

/-- The multiset of ids currently owned by the four containers of a run
state: every id of the batch is in exactly one of them at every step. -/
def stateMS (s : RunState) : Multiset String :=
  (s.queue : Multiset String) + (s.inFlight : Multiset String) +
    (s.success : Multiset String) + ((s.failed.map Prod.fst) : Multiset String)

/-- Invariant of the worker-pool loop of `batchUpdateStudentsClient`:
the containers partition the deduplicated id list, `done` counts the
recorded results, and the progress trace so far is `⟨1,N⟩ … ⟨done,N⟩`. -/
structure Inv (ids : List String) (s : RunState) : Prop where
  ms : stateMS s = (ids : Multiset String)
  doneEq : s.done = s.success.length + s.failed.length
  prog : s.progress = (List.range s.done).map (fun i => Progress.mk (i + 1) ids.length)

/-- While at least one worker exists, the queue can only be non-empty if
some request is in flight (a worker only exits on an empty queue). -/
def Flow (s : RunState) : Prop := s.inFlight = [] → s.queue = []

/-! ### Lemmas about deduplication -/

theorem mem_insertUnique {acc : List String} {x y : String} :
    y ∈ insertUnique acc x ↔ y ∈ acc ∨ y = x := by
  by_cases h : x ∈ acc
  · simp only [insertUnique, if_pos h]
    exact ⟨Or.inl, fun h' => h'.elim id (fun e => e ▸ h)⟩
  · simp [insertUnique, if_neg h]

theorem mem_foldl_insertUnique (l : List String) (acc : List String) (y : String) :
    y ∈ l.foldl insertUnique acc ↔ y ∈ acc ∨ y ∈ l := by
  induction l generalizing acc with
  | nil => simp
  | cons x xs ih =>
    simp only [List.foldl_cons, ih, mem_insertUnique, List.mem_cons]
    tauto

theorem mem_dedup {l : List String} {y : String} : y ∈ dedup l ↔ y ∈ l := by
  simp [dedup, mem_foldl_insertUnique]

theorem nodup_insertUnique {acc : List String} {x : String} (h : acc.Nodup) :
    (insertUnique acc x).Nodup := by
  by_cases hx : x ∈ acc
  · simpa [insertUnique, if_pos hx] using h
  · simp only [insertUnique, if_neg hx]
    simp [List.nodup_append, h, hx]

theorem nodup_foldl_insertUnique (l : List String) (acc : List String)
    (h : acc.Nodup) : (l.foldl insertUnique acc).Nodup := by
  induction l generalizing acc with
  | nil => simpa
  | cons x xs ih => exact ih _ (nodup_insertUnique h)

theorem nodup_dedup (l : List String) : (dedup l).Nodup :=
  nodup_foldl_insertUnique l [] (by simp)

theorem foldl_insertUnique_of_disjoint (l : List String) :
    ∀ acc : List String, (∀ x ∈ l, x ∉ acc) → l.Nodup →
      l.foldl insertUnique acc = acc ++ l := by
  induction l with
  | nil => simp
  | cons x xs ih =>
    intro acc hd hn
    have hx : x ∉ acc := hd x (by simp)
    rw [List.foldl_cons, show insertUnique acc x = acc ++ [x] from by
      simp [insertUnique, hx]]
    rw [ih (acc ++ [x]) ?_ (List.Nodup.of_cons hn)]
    · simp
    · intro y hy
      simp only [List.mem_append, List.mem_singleton]
      rintro (hya | rfl)
      · exact hd y (List.mem_cons_of_mem x hy) hya
      · exact (List.nodup_cons.mp hn).1 hy

theorem dedup_eq_self {l : List String} (h : l.Nodup) : dedup l = l := by
  simpa [dedup] using foldl_insertUnique_of_disjoint l [] (by simp) h

theorem foldl_insertUnique_skip (l1 l2 : List String) (x : String) :
    ∀ acc : List String, x ∈ acc ∨ x ∈ l1 →
      (l1 ++ x :: l2).foldl insertUnique acc = (l1 ++ l2).foldl insertUnique acc := by
  induction l1 with
  | nil =>
    intro acc hx
    rcases hx with hx | hx
    · simp only [List.nil_append, List.foldl_cons]
      rw [show insertUnique acc x = acc from by simp [insertUnique, hx]]
    · simp at hx
  | cons a l1' ih =>
    intro acc hx
    simp only [List.cons_append, List.foldl_cons]
    apply ih
    rcases hx with hx | hx
    · exact Or.inl (mem_insertUnique.mpr (Or.inl hx))
    · rcases List.mem_cons.mp hx with rfl | hx
      · exact Or.inl (mem_insertUnique.mpr (Or.inr rfl))
      · exact Or.inr hx

theorem dedup_skip {l1 l2 : List String} {x : String} (hx : x ∈ l1) :
    dedup (l1 ++ x :: l2) = dedup (l1 ++ l2) :=
  foldl_insertUnique_skip l1 l2 x [] (Or.inr hx)

theorem dedup_eq_nil_iff {l : List String} : dedup l = [] ↔ l = [] := by
  constructor
  · intro h
    cases l with
    | nil => rfl
    | cons x xs =>
      exfalso
      have hx : x ∈ dedup (x :: xs) := mem_dedup.mpr (by simp)
      rw [h] at hx
      simp at hx
  · rintro rfl
    rfl

theorem map_jsString_str (ids : List String) :
    (ids.map JsVal.str).map jsString = ids := by
  induction ids with
  | nil => rfl
  | cons x xs ih => simp [jsString, ih]

/-! ### Lemmas about the scheduler choice -/

theorem pick_perm {α : Type} {l : List α} {c : Nat} {y : α} {ys : List α}
    (h : pick l c = some (y, ys)) : l.Perm (y :: ys) := by
  induction l generalizing c y ys with
  | nil => simp [pick] at h
  | cons x xs ih =>
    cases c with
    | zero =>
      simp only [pick, Option.some.injEq, Prod.mk.injEq] at h
      obtain ⟨rfl, rfl⟩ := h
      exact List.Perm.refl _
    | succ n =>
      simp only [pick] at h
      cases hp : pick xs n with
      | none =>
        rw [hp] at h
        simp only [Option.some.injEq, Prod.mk.injEq] at h
        obtain ⟨rfl, rfl⟩ := h
        exact List.Perm.refl _
      | some p =>
        obtain ⟨z, zs⟩ := p
        rw [hp] at h
        simp only [Option.some.injEq, Prod.mk.injEq] at h
        obtain ⟨rfl, rfl⟩ := h
        exact ((ih hp).cons x).trans (List.Perm.swap _ x _)

theorem pick_ne_none {α : Type} {l : List α} (c : Nat) (h : l ≠ []) :
    ∃ y ys, pick l c = some (y, ys) := by
  cases l with
  | nil => exact absurd rfl h
  | cons x xs =>
    cases c with
    | zero => exact ⟨x, xs, rfl⟩
    | succ n =>
      cases hp : pick xs n with
      | none => exact ⟨x, xs, by simp [pick, hp]⟩
      | some p => exact ⟨p.1, x :: p.2, by simp [pick, hp]⟩

theorem pick_nil_eq_none {α : Type} (c : Nat) : pick ([] : List α) c = none := rfl

/-! ### The run-state invariant -/

theorem recordOutcome_queue (o : String → Option JsError) (t : Nat)
    (s : RunState) (id : String) (rest : List String) :
    (recordOutcome o t s id rest).queue = s.queue := by
  cases h : o id <;> simp [recordOutcome, h]

theorem recordOutcome_done (o : String → Option JsError) (t : Nat)
    (s : RunState) (id : String) (rest : List String) :
    (recordOutcome o t s id rest).done = s.done + 1 := by
  cases h : o id <;> simp [recordOutcome, h]

theorem recordOutcome_progress (o : String → Option JsError) (t : Nat)
    (s : RunState) (id : String) (rest : List String) :
    (recordOutcome o t s id rest).progress = s.progress ++ [⟨s.done + 1, t⟩] := by
  cases h : o id <;> simp [recordOutcome, h]

theorem recordOutcome_lens (o : String → Option JsError) (t : Nat)
    (s : RunState) (id : String) (rest : List String) :
    (recordOutcome o t s id rest).success.length +
      (recordOutcome o t s id rest).failed.length =
      s.success.length + s.failed.length + 1 := by
  cases h : o id <;> simp [recordOutcome, h] <;> omega

theorem recordOutcome_ms (o : String → Option JsError) (t : Nat)
    (s : RunState) (id : String) (rest : List String)
    (hperm : s.inFlight.Perm (id :: rest)) :
    stateMS (recordOutcome o t s id rest) = stateMS s := by
  have hin : (s.inFlight : Multiset String) = id ::ₘ (rest : Multiset String) := by
    simpa using Multiset.coe_eq_coe.mpr hperm
  cases h : o id with
  | none =>
    simp only [stateMS, recordOutcome, h]
    rw [hin]
    rw [show ((s.success ++ [id] : List String) : Multiset String) =
        (s.success : Multiset String) + (([id] : List String) : Multiset String) from
      (Multiset.coe_add _ _).symm]
    simp only [Multiset.coe_singleton, ← Multiset.singleton_add]
    abel
  | some e =>
    simp only [stateMS, recordOutcome, h, List.map_append, List.map_cons,
      List.map_nil]
    rw [hin]
    rw [show ((List.map Prod.fst s.failed ++ [id] : List String) : Multiset String) =
        ((List.map Prod.fst s.failed : List String) : Multiset String) +
          (([id] : List String) : Multiset String) from
      (Multiset.coe_add _ _).symm]
    simp only [Multiset.coe_singleton, ← Multiset.singleton_add]
    abel

theorem refill_success (s : RunState) : (refill s).success = s.success := by
  cases h : s.queue <;> simp [refill, h]

theorem refill_failed (s : RunState) : (refill s).failed = s.failed := by
  cases h : s.queue <;> simp [refill, h]

theorem refill_done (s : RunState) : (refill s).done = s.done := by
  cases h : s.queue <;> simp [refill, h]

theorem refill_progress (s : RunState) : (refill s).progress = s.progress := by
  cases h : s.queue <;> simp [refill, h]

theorem refill_ms (s : RunState) : stateMS (refill s) = stateMS s := by
  cases h : s.queue with
  | nil => simp [refill, h]
  | cons q qs =>
    simp only [refill, h, stateMS]
    rw [show ((q :: qs : List String) : Multiset String) =
        q ::ₘ (qs : Multiset String) from rfl]
    rw [show ((s.inFlight ++ [q] : List String) : Multiset String) =
        (s.inFlight : Multiset String) + (([q] : List String) : Multiset String) from
      (Multiset.coe_add _ _).symm]
    simp only [Multiset.coe_singleton, ← Multiset.singleton_add]
    abel

theorem step_of_empty (o : String → Option JsError) (t : Nat) (c : Nat)
    (s : RunState) (h : s.inFlight = []) : step o t s c = s := by
  unfold step
  rw [h, pick_nil_eq_none]

theorem step_done_of_ne (o : String → Option JsError) (t : Nat) (c : Nat)
    {s : RunState} (hne : s.inFlight ≠ []) : (step o t s c).done = s.done + 1 := by
  obtain ⟨y, ys, hp⟩ := pick_ne_none c hne
  unfold step
  rw [hp]
  rw [refill_done, recordOutcome_done]

theorem step_inv (outcome : String → Option JsError) (ids : List String)
    (c : Nat) (s : RunState) (h : Inv ids s) :
    Inv ids (step outcome ids.length s c) := by
  cases hp : pick s.inFlight c with
  | none =>
    unfold step
    rw [hp]
    exact h
  | some p =>
    obtain ⟨id, rest⟩ := p
    have hperm := pick_perm hp
    unfold step
    rw [hp]
    constructor
    · rw [refill_ms, recordOutcome_ms _ _ _ _ _ hperm, h.ms]
    · rw [refill_done, refill_success, refill_failed, recordOutcome_done,
        recordOutcome_lens, h.doneEq]
    · rw [refill_progress, refill_done, recordOutcome_progress,
        recordOutcome_done, h.prog, h.doneEq]
      rw [List.range_succ, List.map_append]
      simp [h.doneEq]

theorem step_flow (o : String → Option JsError) (t : Nat) (c : Nat)
    {s : RunState} (h : Flow s) : Flow (step o t s c) := by
  cases hp : pick s.inFlight c with
  | none =>
    unfold step
    rw [hp]
    exact h
  | some p =>
    obtain ⟨id, rest⟩ := p
    unfold step
    rw [hp]
    intro hf
    rcases hq : (recordOutcome o t s id rest).queue with _ | ⟨q, qs⟩
    · simp [refill, hq]
    · exfalso
      have hif : (refill (recordOutcome o t s id rest)).inFlight =
          (recordOutcome o t s id rest).inFlight ++ [q] := by
        simp [refill, hq]
      rw [hif] at hf
      simp at hf

theorem runSteps_inv (outcome : String → Option JsError) (ids : List String)
    (sched : List Nat) : ∀ s : RunState, Inv ids s →
      Inv ids (runSteps outcome ids.length s sched) := by
  induction sched with
  | nil => exact fun s h => h
  | cons c cs ih => exact fun s h => ih _ (step_inv outcome ids c s h)

theorem runSteps_flow (outcome : String → Option JsError) (t : Nat)
    (sched : List Nat) : ∀ s : RunState, Flow s →
      Flow (runSteps outcome t s sched) := by
  induction sched with
  | nil => exact fun s h => h
  | cons c cs ih => exact fun s h => ih _ (step_flow outcome t c h)

theorem inv_card {ids : List String} {s : RunState} (h : Inv ids s) :
    s.queue.length + s.inFlight.length + s.success.length + s.failed.length =
      ids.length := by
  have h2 := congrArg Multiset.card h.ms
  simp [stateMS] at h2
  omega

theorem runSteps_complete (outcome : String → Option JsError)
    (ids : List String) (sched : List Nat) :
    ∀ s : RunState, Inv ids s → Flow s → ids.length ≤ s.done + sched.length →
      (runSteps outcome ids.length s sched).queue = [] ∧
      (runSteps outcome ids.length s sched).inFlight = [] ∧
      (runSteps outcome ids.length s sched).done = ids.length := by
  induction sched with
  | nil =>
    intro s h hf hlen
    have hcard := inv_card h
    have hdone := h.doneEq
    simp only [List.length_nil, Nat.add_zero] at hlen
    have hq : s.queue.length = 0 := by omega
    have hif : s.inFlight.length = 0 := by omega
    exact ⟨List.length_eq_zero.mp hq, List.length_eq_zero.mp hif, by
      simp only [runSteps]; omega⟩
  | cons c cs ih =>
    intro s h hf hlen
    by_cases hin : s.inFlight = []
    · have hq := hf hin
      have hcard := inv_card h
      have hdone := h.doneEq
      rw [hq, hin] at hcard
      simp only [List.length_nil] at hcard
      show _ ∧ _ ∧ _
      rw [show runSteps outcome ids.length s (c :: cs) =
          runSteps outcome ids.length (step outcome ids.length s c) cs from rfl]
      rw [step_of_empty _ _ _ _ hin]
      exact ih s h hf (by omega)
    · rw [show runSteps outcome ids.length s (c :: cs) =
          runSteps outcome ids.length (step outcome ids.length s c) cs from rfl]
      refine ih _ (step_inv outcome ids c s h) (step_flow outcome ids.length c hf) ?_
      rw [step_done_of_ne outcome ids.length c hin]
      simp only [List.length_cons] at hlen
      omega

theorem final_perm {ids : List String} {s : RunState} (h : Inv ids s)
    (hq : s.queue = []) (hif : s.inFlight = []) :
    (s.success ++ s.failed.map Prod.fst).Perm ids := by
  have hms := h.ms
  simp only [stateMS] at hms
  rw [hq, hif] at hms
  simp only [Multiset.coe_nil, zero_add] at hms
  rw [Multiset.coe_add] at hms
  exact Multiset.coe_eq_coe.mp hms

@[simp] theorem isResolved_ok {α : Type} (a : α) :
    isResolved (Except.ok a : Except String α) = true := rfl

@[simp] theorem isResolved_error {α : Type} (e : String) :
    isResolved (Except.error e : Except String α) = false := rfl

@[simp] theorem batchResultOf_ok (r : BatchResult × List Progress) :
    batchResultOf (.ok r) = r.1 := rfl

@[simp] theorem runTrace_ok (r : BatchResult × List Progress) :
    runTrace (.ok r) = r.2 := rfl

@[simp] theorem runTrace_error (e : String) : runTrace (.error e) = [] := rfl

theorem initState_inv (ids : List String) (n : Nat) : Inv ids (initState ids n) := by
  constructor
  · simp only [stateMS, initState, List.map_nil, Multiset.coe_nil, add_zero]
    rw [add_comm, Multiset.coe_add, List.take_append_drop]
  · rfl
  · rfl

theorem initState_flow (ids : List String) (n : Nat) (h : 1 ≤ n ∨ ids = []) :
    Flow (initState ids n) := by
  intro hif
  simp only [initState] at hif ⊢
  rcases h with h | rfl
  · rcases ids with _ | ⟨x, xs⟩
    · simp
    · exfalso
      rcases n with _ | n
      · omega
      · simp [List.take_succ_cons] at hif
  · simp

theorem numWorkers_pos {conc : Int} {n : Nat} (hc : 1 ≤ conc) (hn : 1 ≤ n) :
    1 ≤ (min conc (n : Int)).toNat := by
  have h1 : (1 : Int) ≤ min conc (n : Int) := le_min hc (by exact_mod_cast hn)
  omega

theorem numWorkers_nonpos {conc : Int} (n : Nat) (hc : conc ≤ 0) :
    (min conc (n : Int)).toNat = 0 := by
  have := min_le_left conc (n : Int)
  omega

theorem runSteps_stuck (outcome : String → Option JsError) (t : Nat)
    (sched : List Nat) : ∀ s : RunState, s.inFlight = [] →
      runSteps outcome t s sched = s := by
  induction sched with
  | nil => intro s _; rfl
  | cons c cs ih =>
    intro s h
    rw [show runSteps outcome t s (c :: cs) =
        runSteps outcome t (step outcome t s c) cs from rfl]
    rw [step_of_empty _ _ _ _ h]
    exact ih s h

theorem perm_partition {succ fst ids : List String}
    (hperm : (succ ++ fst).Perm ids) (hnd : ids.Nodup) :
    (∀ id ∈ ids, (id ∈ succ ∧ id ∉ fst) ∨ (id ∉ succ ∧ id ∈ fst)) ∧
    (∀ id ∈ succ, id ∈ ids) ∧ (∀ id ∈ fst, id ∈ ids) := by
  have hnd2 : (succ ++ fst).Nodup := hperm.nodup_iff.mpr hnd
  have hdisj : succ.Disjoint fst := (List.nodup_append.mp hnd2).2.2
  refine ⟨?_, ?_, ?_⟩
  · intro id hid
    rcases List.mem_append.mp (hperm.mem_iff.mpr hid) with h | h
    · exact Or.inl ⟨h, fun h2 => hdisj h h2⟩
    · exact Or.inr ⟨fun h2 => hdisj h2 h, h⟩
  · intro id h
    exact hperm.mem_iff.mp (List.mem_append.mpr (Or.inl h))
  · intro id h
    exact hperm.mem_iff.mp (List.mem_append.mpr (Or.inr h))

theorem final_subset {ids : List String} {s : RunState} (h : Inv ids s) :
    (∀ id ∈ s.success, id ∈ ids) ∧ (∀ q ∈ s.failed, q.1 ∈ ids) := by
  have hms := h.ms
  constructor
  · intro id hid
    have hmem : id ∈ stateMS s := by
      simp only [stateMS, Multiset.mem_add, Multiset.mem_coe]
      tauto
    rw [hms] at hmem
    exact Multiset.mem_coe.mp hmem
  · intro q hq
    have hid : q.1 ∈ s.failed.map Prod.fst := List.mem_map_of_mem Prod.fst hq
    have hmem : q.1 ∈ stateMS s := by
      simp only [stateMS, Multiset.mem_add, Multiset.mem_coe]
      tauto
    rw [hms] at hmem
    exact Multiset.mem_coe.mp hmem

theorem dedup_map_elem {l : List JsVal} {id : String}
    (h : id ∈ dedup (l.map jsString)) : ∃ x ∈ l, id = jsString x := by
  obtain ⟨x, hx, he⟩ := List.mem_map.mp (mem_dedup.mp h)
  exact ⟨x, hx, he.symm⟩

/-! ### Claim theorems -/

/-- C3, counterexample: for the bare-array response body `[1,2,3]` the
student-list normalizer `getStudents` returns `[]`, not `[1,2,3]` — no
candidate in its chain checks whether the body itself is an array, so the
claim fails on this shape. -/
theorem getStudents_bare_array_cex :
    getStudents (Json.arr [Json.num 1, Json.num 2, Json.num 3]) = [] ∧
    getStudents (Json.arr [Json.num 1, Json.num 2, Json.num 3]) ≠
      [Json.num 1, Json.num 2, Json.num 3] := by
  constructor
  · rfl
  · rw [show getStudents (Json.arr [Json.num 1, Json.num 2, Json.num 3]) =
        [] from rfl]
    simp

/-- C3, amended: `getStudents` extracts `[1,2,3]` from `{data:[1,2,3]}`,
`{students:[1,2,3]}` and `{data:{students:[1,2,3]}}`, and returns `[]` for
the bare array `[1,2,3]` as well as for `{}` and `null`; `getClasses`
extracts the list from `{data:[1,2,3]}` and `{classes:[1,2,3]}`, but for
`{data:{classes:[1,2,3]}}` the truthy `data` object short-circuits the `||`
chain so the inner OBJECT (not the list) is returned, and for a bare array,
`{}` or `null` it returns `[]`. -/
theorem normalizer_shapes_amended :
    getStudents (Json.obj [("data", Json.arr [Json.num 1, Json.num 2, Json.num 3])]) =
      [Json.num 1, Json.num 2, Json.num 3] ∧
    getStudents (Json.obj [("students", Json.arr [Json.num 1, Json.num 2, Json.num 3])]) =
      [Json.num 1, Json.num 2, Json.num 3] ∧
    getStudents (Json.obj [("data",
        Json.obj [("students", Json.arr [Json.num 1, Json.num 2, Json.num 3])])]) =
      [Json.num 1, Json.num 2, Json.num 3] ∧
    getStudents (Json.arr [Json.num 1, Json.num 2, Json.num 3]) = [] ∧
    getStudents (Json.obj []) = [] ∧
    getStudents Json.null = [] ∧
    getClasses (Json.obj [("data", Json.arr [Json.num 1, Json.num 2, Json.num 3])]) =
      Json.arr [Json.num 1, Json.num 2, Json.num 3] ∧
    getClasses (Json.obj [("classes", Json.arr [Json.num 1, Json.num 2, Json.num 3])]) =
      Json.arr [Json.num 1, Json.num 2, Json.num 3] ∧
    getClasses (Json.obj [("data",
        Json.obj [("classes", Json.arr [Json.num 1, Json.num 2, Json.num 3])])]) =
      Json.obj [("classes", Json.arr [Json.num 1, Json.num 2, Json.num 3])] ∧
    getClasses (Json.arr [Json.num 1, Json.num 2, Json.num 3]) = Json.arr [] ∧
    getClasses (Json.obj []) = Json.arr [] ∧
    getClasses Json.null = Json.arr [] :=
  ⟨rfl, rfl, rfl, rfl, rfl, rfl, rfl, rfl, rfl, rfl, rfl, rfl⟩

/-- C8: `getStudents` and `getClasses` degrade gracefully on malformed
bodies, but `getStudentById` THROWS a TypeError when the response body is
`null` or `undefined`: `res.data.data?.student || res.data.student`
dereferences `res.data` twice without optional chaining.  On other
malformed bodies (empty object, number) it degrades to `undefined`. -/
theorem getStudentById_null_throws :
    getStudentById Json.null =
      .error "TypeError: cannot read properties of null" ∧
    getStudentById Json.undefined =
      .error "TypeError: cannot read properties of undefined" ∧
    getStudentById (Json.obj []) = .ok Json.undefined ∧
    getStudentById (Json.num 5) = .ok Json.undefined ∧
    getStudents Json.undefined = [] ∧
    getStudents (Json.num 7) = [] ∧
    getClasses Json.undefined = Json.arr [] ∧
    getClasses (Json.num 7) = Json.arr [] :=
  ⟨rfl, rfl, rfl, rfl, rfl, rfl, rfl, rfl⟩

/-- C4, counterexample: for `updates = {semester: ""}` the sanitized object
KEEPS an own property `semester` whose value is `undefined` (not a number),
`Object.keys` counts it, and the call proceeds instead of rejecting — so
"semester is kept only when coercible to a number (and is sent as a
number)" fails, and an update carrying no defined field is not rejected. -/
theorem sanitize_kept_undefined_cex :
    (sanitize (some ⟨some (JsVal.str ""), none, []⟩)).semester =
      some JsVal.undefined ∧
    isNumVal JsVal.undefined = false ∧
    sanitizedCount (sanitize (some ⟨some (JsVal.str ""), none, []⟩)) = 1 ∧
    isResolved (batchUpdateStudentsClient [JsVal.str "a"]
      (some ⟨some (JsVal.str ""), none, []⟩) 5 (fun _ => none) [0]) = true :=
  ⟨rfl, rfl, rfl, rfl⟩

/-- C4, amended: `{semester:"5",division:"A",extra:"x"}` sanitizes to
exactly `{semester: 5, division: "A"}` and `{semester:"abc",division:"  "}`
is rejected pre-flight; but when `updates.semester` is `""`, `null` or
`undefined`, a `semester` own property with value `undefined` is kept, so
the sanitized object is not empty by `Object.keys` and the call proceeds;
in general the call rejects exactly when the sanitized object has no own
properties. -/
theorem sanitize_amended :
    sanitize (some ⟨some (JsVal.str "5"), some (JsVal.str "A"),
        [("extra", JsVal.str "x")]⟩) =
      { semester := some (JsVal.num 5), division := some "A" } ∧
    batchUpdateStudentsClient [JsVal.str "a"]
      (some ⟨some (JsVal.str "abc"), some (JsVal.str "  "), []⟩) 5
      (fun _ => none) [0] =
      .error "No valid fields to update. Only semester and division are allowed." ∧
    sanitize (some ⟨some (JsVal.str ""), none, []⟩) =
      { semester := some JsVal.undefined, division := none } ∧
    sanitize (some ⟨some JsVal.null, none, []⟩) =
      { semester := some JsVal.undefined, division := none } ∧
    sanitize (some ⟨some JsVal.undefined, none, []⟩) =
      { semester := some JsVal.undefined, division := none } ∧
    (∀ (u : Option Updates) (idsArg : List JsVal) (conc : Int)
        (outcome : String → Option JsError) (sched : List Nat),
      isResolved (batchUpdateStudentsClient idsArg u conc outcome sched) = true ↔
        sanitizedCount (sanitize u) ≠ 0) := by
  refine ⟨by decide, rfl, by decide, by decide, by decide, ?_⟩
  intro u idsArg conc outcome sched
  by_cases h : sanitizedCount (sanitize u) = 0
  · simp [batchUpdateStudentsClient, h]
  · simp [batchUpdateStudentsClient, h]

/-- C6, counterexample: `batchDeleteStudentsClient` called with an empty
id list RESOLVES with the empty result `{success: [], failed: []}` — it is
not surfaced as a rejection (`if (ids.length === 0) return results;`). -/
theorem emptyBatch_no_reject_cex :
    batchDeleteStudentsClient [] none = .ok (⟨[], []⟩, []) ∧
    isResolved (batchDeleteStudentsClient [] none) = true :=
  ⟨rfl, rfl⟩

/-- C6, amended: every batch entry point whose work-item set is empty after
deduplication short-circuits and RESOLVES immediately with the empty
BatchResult, no network activity and no progress report (a rejection occurs
only for an empty sanitized update payload in the update variant). -/
theorem emptyBatch_resolves_empty (u : Option Updates)
    (hu : sanitizedCount (sanitize u) ≠ 0) (conc : Int)
    (outcome : String → Option JsError) (sched : List Nat)
    (classId : String) (b : Option JsError) :
    batchUpdateStudentsClient [] u conc outcome sched = .ok (⟨[], []⟩, []) ∧
    batchDeleteStudentsClient [] b = .ok (⟨[], []⟩, []) ∧
    batchRemoveStudentsFromClassClient classId [] b = .ok (⟨[], []⟩, []) := by
  refine ⟨?_, rfl, rfl⟩
  simp only [batchUpdateStudentsClient, if_neg hu]
  have hinit : initState (dedup (([] : List JsVal).map jsString))
      ((min conc ((dedup (([] : List JsVal).map jsString)).length : Int)).toNat) =
      ⟨[], [], [], [], 0, []⟩ := by
    simp [initState, dedup]
  rw [hinit, runSteps_stuck outcome _ sched _ rfl]

/-- C1: for every non-empty deduplicated list of id strings, every
concurrency bound K ≥ 1, every per-item behaviour of the injected
`updateStudent` operation and every completion order (any schedule long
enough for the run to finish), `batchUpdateStudentsClient` with a valid
update payload resolves — never rejects — with a BatchResult in which every
input id appears in exactly one of `success` and `failed`, never both and
never neither, so `success.length + failed.length = N`. -/
theorem batchUpdate_partition (ids : List String) (updates : Option Updates)
    (conc : Int) (outcome : String → Option JsError) (sched : List Nat)
    (hne : ids ≠ []) (hnd : ids.Nodup) (hc : 1 ≤ conc)
    (hu : sanitizedCount (sanitize updates) ≠ 0)
    (hs : ids.length ≤ sched.length) :
    isResolved (batchUpdateStudentsClient (ids.map JsVal.str) updates conc
      outcome sched) = true ∧
    (batchResultOf (batchUpdateStudentsClient (ids.map JsVal.str) updates conc
      outcome sched)).success.length +
      (batchResultOf (batchUpdateStudentsClient (ids.map JsVal.str) updates conc
        outcome sched)).failed.length = ids.length ∧
    (∀ id ∈ ids,
      (id ∈ (batchResultOf (batchUpdateStudentsClient (ids.map JsVal.str)
          updates conc outcome sched)).success ∧
        id ∉ (batchResultOf (batchUpdateStudentsClient (ids.map JsVal.str)
          updates conc outcome sched)).failed.map Prod.fst) ∨
      (id ∉ (batchResultOf (batchUpdateStudentsClient (ids.map JsVal.str)
          updates conc outcome sched)).success ∧
        id ∈ (batchResultOf (batchUpdateStudentsClient (ids.map JsVal.str)
          updates conc outcome sched)).failed.map Prod.fst)) ∧
    (∀ id ∈ (batchResultOf (batchUpdateStudentsClient (ids.map JsVal.str)
        updates conc outcome sched)).success, id ∈ ids) ∧
    (∀ q ∈ (batchResultOf (batchUpdateStudentsClient (ids.map JsVal.str)
        updates conc outcome sched)).failed, q.1 ∈ ids) := by
  have hids : dedup ((ids.map JsVal.str).map jsString) = ids := by
    rw [map_jsString_str]
    exact dedup_eq_self hnd
  have hw : 1 ≤ (min conc (ids.length : Int)).toNat :=
    numWorkers_pos hc (List.length_pos.mpr hne)
  simp only [batchUpdateStudentsClient, if_neg hu, hids, isResolved_ok,
    batchResultOf_ok]
  have hinv := runSteps_inv outcome ids sched
    (initState ids ((min conc (ids.length : Int)).toNat))
    (initState_inv ids ((min conc (ids.length : Int)).toNat))
  have hcomp := runSteps_complete outcome ids sched
    (initState ids ((min conc (ids.length : Int)).toNat))
    (initState_inv ids ((min conc (ids.length : Int)).toNat))
    (initState_flow ids ((min conc (ids.length : Int)).toNat) (Or.inl hw))
    (by simpa [initState] using hs)
  have hperm := final_perm hinv hcomp.1 hcomp.2.1
  have hpart := perm_partition hperm hnd
  have hlen := hperm.length_eq
  simp only [List.length_append, List.length_map] at hlen
  refine ⟨trivial, hlen, hpart.1, hpart.2.1, ?_⟩
  intro q hq
  exact hpart.2.2 q.1 (List.mem_map_of_mem Prod.fst hq)

/-- C1, witness at ids = ["a","b"], K = 1, one resolving and one rejecting
per-item call. -/
theorem batchUpdate_partition_witness :
    ((["a", "b"] : List String) ≠ [] ∧ (["a", "b"] : List String).Nodup ∧
      (1 : Int) ≤ 1 ∧
      sanitizedCount (sanitize (some ⟨some (JsVal.num 5), none, []⟩)) ≠ 0 ∧
      (["a", "b"] : List String).length ≤ ([0, 0] : List Nat).length) ∧
    (isResolved (batchUpdateStudentsClient ((["a", "b"] : List String).map JsVal.str)
      (some ⟨some (JsVal.num 5), none, []⟩) 1
      (fun s => if s = "a" then none else some ⟨none, some "boom"⟩) [0, 0]) = true ∧
    (batchResultOf (batchUpdateStudentsClient ((["a", "b"] : List String).map JsVal.str)
      (some ⟨some (JsVal.num 5), none, []⟩) 1
      (fun s => if s = "a" then none else some ⟨none, some "boom"⟩) [0, 0])).success.length +
      (batchResultOf (batchUpdateStudentsClient ((["a", "b"] : List String).map JsVal.str)
        (some ⟨some (JsVal.num 5), none, []⟩) 1
        (fun s => if s = "a" then none else some ⟨none, some "boom"⟩) [0, 0])).failed.length =
      (["a", "b"] : List String).length ∧
    (∀ id ∈ (["a", "b"] : List String),
      (id ∈ (batchResultOf (batchUpdateStudentsClient ((["a", "b"] : List String).map JsVal.str)
          (some ⟨some (JsVal.num 5), none, []⟩) 1
          (fun s => if s = "a" then none else some ⟨none, some "boom"⟩) [0, 0])).success ∧
        id ∉ (batchResultOf (batchUpdateStudentsClient ((["a", "b"] : List String).map JsVal.str)
          (some ⟨some (JsVal.num 5), none, []⟩) 1
          (fun s => if s = "a" then none else some ⟨none, some "boom"⟩) [0, 0])).failed.map Prod.fst) ∨
      (id ∉ (batchResultOf (batchUpdateStudentsClient ((["a", "b"] : List String).map JsVal.str)
          (some ⟨some (JsVal.num 5), none, []⟩) 1
          (fun s => if s = "a" then none else some ⟨none, some "boom"⟩) [0, 0])).success ∧
        id ∈ (batchResultOf (batchUpdateStudentsClient ((["a", "b"] : List String).map JsVal.str)
          (some ⟨some (JsVal.num 5), none, []⟩) 1
          (fun s => if s = "a" then none else some ⟨none, some "boom"⟩) [0, 0])).failed.map Prod.fst)) ∧
    (∀ id ∈ (batchResultOf (batchUpdateStudentsClient ((["a", "b"] : List String).map JsVal.str)
        (some ⟨some (JsVal.num 5), none, []⟩) 1
        (fun s => if s = "a" then none else some ⟨none, some "boom"⟩) [0, 0])).success,
      id ∈ (["a", "b"] : List String)) ∧
    (∀ q ∈ (batchResultOf (batchUpdateStudentsClient ((["a", "b"] : List String).map JsVal.str)
        (some ⟨some (JsVal.num 5), none, []⟩) 1
        (fun s => if s = "a" then none else some ⟨none, some "boom"⟩) [0, 0])).failed,
      q.1 ∈ (["a", "b"] : List String))) :=
  ⟨⟨by decide, by decide, by decide, by decide, by decide⟩,
    batchUpdate_partition ["a", "b"] (some ⟨some (JsVal.num 5), none, []⟩) 1
      (fun s => if s = "a" then none else some ⟨none, some "boom"⟩) [0, 0]
      (by decide) (by decide) (by decide) (by decide) (by decide)⟩

/-- C2: for every deduplicated id list of size N, every K ≥ 1, a valid
update payload and any schedule long enough for the run to finish, the
progress callback is invoked exactly N times, the sequence of `done` values
is exactly 1, 2, ..., N in order, and every invocation carries total = N
(an absent callback merely discards this trace: `onProgress?.()`). -/
theorem batchUpdate_progress_sequence (ids : List String)
    (updates : Option Updates) (conc : Int)
    (outcome : String → Option JsError) (sched : List Nat)
    (hnd : ids.Nodup) (hc : 1 ≤ conc)
    (hu : sanitizedCount (sanitize updates) ≠ 0)
    (hs : ids.length ≤ sched.length) :
    isResolved (batchUpdateStudentsClient (ids.map JsVal.str) updates conc
      outcome sched) = true ∧
    runTrace (batchUpdateStudentsClient (ids.map JsVal.str) updates conc
      outcome sched) =
      (List.range ids.length).map (fun i => Progress.mk (i + 1) ids.length) ∧
    (runTrace (batchUpdateStudentsClient (ids.map JsVal.str) updates conc
      outcome sched)).length = ids.length := by
  have hids : dedup ((ids.map JsVal.str).map jsString) = ids := by
    rw [map_jsString_str]
    exact dedup_eq_self hnd
  have hw : 1 ≤ (min conc (ids.length : Int)).toNat ∨ ids = [] := by
    rcases eq_or_ne ids [] with h | h
    · exact Or.inr h
    · exact Or.inl (numWorkers_pos hc (List.length_pos.mpr h))
  simp only [batchUpdateStudentsClient, if_neg hu, hids, isResolved_ok,
    runTrace_ok]
  have hinv := runSteps_inv outcome ids sched
    (initState ids ((min conc (ids.length : Int)).toNat))
    (initState_inv ids ((min conc (ids.length : Int)).toNat))
  have hcomp := runSteps_complete outcome ids sched
    (initState ids ((min conc (ids.length : Int)).toNat))
    (initState_inv ids ((min conc (ids.length : Int)).toNat))
    (initState_flow ids ((min conc (ids.length : Int)).toNat) hw)
    (by simpa [initState] using hs)
  refine ⟨trivial, ?_, ?_⟩
  · rw [hinv.prog, hcomp.2.2]
  · rw [hinv.prog, hcomp.2.2]
    simp

/-- C2, witness at ids = ["a","b"], K = 2, one failing item. -/
theorem batchUpdate_progress_sequence_witness :
    ((["a", "b"] : List String).Nodup ∧ (1 : Int) ≤ 2 ∧
      sanitizedCount (sanitize (some ⟨none, some (JsVal.str "A"), []⟩)) ≠ 0 ∧
      (["a", "b"] : List String).length ≤ ([1, 0] : List Nat).length) ∧
    (isResolved (batchUpdateStudentsClient ((["a", "b"] : List String).map JsVal.str)
      (some ⟨none, some (JsVal.str "A"), []⟩) 2
      (fun s => if s = "b" then some ⟨some "bad", none⟩ else none) [1, 0]) = true ∧
    runTrace (batchUpdateStudentsClient ((["a", "b"] : List String).map JsVal.str)
      (some ⟨none, some (JsVal.str "A"), []⟩) 2
      (fun s => if s = "b" then some ⟨some "bad", none⟩ else none) [1, 0]) =
      (List.range (["a", "b"] : List String).length).map
        (fun i => Progress.mk (i + 1) (["a", "b"] : List String).length) ∧
    (runTrace (batchUpdateStudentsClient ((["a", "b"] : List String).map JsVal.str)
      (some ⟨none, some (JsVal.str "A"), []⟩) 2
      (fun s => if s = "b" then some ⟨some "bad", none⟩ else none) [1, 0])).length =
      (["a", "b"] : List String).length) :=
  ⟨⟨by decide, by decide, by decide, by decide⟩,
    batchUpdate_progress_sequence ["a", "b"] (some ⟨none, some (JsVal.str "A"), []⟩)
      2 (fun s => if s = "b" then some ⟨some "bad", none⟩ else none) [1, 0]
      (by decide) (by decide) (by decide) (by decide)⟩

/-- C5: for every non-empty deduplicated id list of size N, if the single
bulk call of `batchDeleteStudentsClient` (or
`batchRemoveStudentsFromClassClient`) fails, the call resolves with
`success = []` and `failed` holding all N ids paired with the same captured
error; if the bulk call succeeds, all N ids are in `success` and `failed`
is empty; in both cases exactly one progress report `{done: N, total: N}`
is made. -/
theorem bulk_variants_all_or_nothing (ids : List String) (classId : String)
    (e : JsError) (hne : ids ≠ []) (hnd : ids.Nodup) :
    batchDeleteStudentsClient (ids.map JsVal.str) (some e) =
      .ok (⟨[], ids.map (fun id => (id, extractErr e))⟩,
           [⟨ids.length, ids.length⟩]) ∧
    batchDeleteStudentsClient (ids.map JsVal.str) none =
      .ok (⟨ids, []⟩, [⟨ids.length, ids.length⟩]) ∧
    batchRemoveStudentsFromClassClient classId (ids.map JsVal.str) (some e) =
      .ok (⟨[], ids.map (fun id => (id, ErrPayload.raw e))⟩,
           [⟨ids.length, ids.length⟩]) ∧
    batchRemoveStudentsFromClassClient classId (ids.map JsVal.str) none =
      .ok (⟨ids, []⟩, [⟨ids.length, ids.length⟩]) := by
  have hids : dedup ((ids.map JsVal.str).map jsString) = ids := by
    rw [map_jsString_str]
    exact dedup_eq_self hnd
  have hlen : ¬ ids.length = 0 := by
    simpa [List.length_eq_zero] using hne
  have hids2 : dedup (List.map (jsString ∘ JsVal.str) ids) = ids := by
    rw [← List.map_map]
    exact hids
  refine ⟨?_, ?_, ?_, ?_⟩ <;>
    simp [batchDeleteStudentsClient, batchRemoveStudentsFromClassClient,
      hids, hids2, hne, hlen]

/-- C5, witness at ids = ["a","b","c"] and a network-error bulk failure. -/
theorem bulk_variants_all_or_nothing_witness :
    ((["a", "b", "c"] : List String) ≠ [] ∧
      (["a", "b", "c"] : List String).Nodup) ∧
    (batchDeleteStudentsClient ((["a", "b", "c"] : List String).map JsVal.str)
        (some ⟨none, some "network error"⟩) =
      .ok (⟨[], (["a", "b", "c"] : List String).map
            (fun id => (id, extractErr ⟨none, some "network error"⟩))⟩,
           [⟨(["a", "b", "c"] : List String).length,
             (["a", "b", "c"] : List String).length⟩]) ∧
    batchDeleteStudentsClient ((["a", "b", "c"] : List String).map JsVal.str) none =
      .ok (⟨["a", "b", "c"], []⟩,
           [⟨(["a", "b", "c"] : List String).length,
             (["a", "b", "c"] : List String).length⟩]) ∧
    batchRemoveStudentsFromClassClient "c1"
        ((["a", "b", "c"] : List String).map JsVal.str)
        (some ⟨none, some "network error"⟩) =
      .ok (⟨[], (["a", "b", "c"] : List String).map
            (fun id => (id, ErrPayload.raw ⟨none, some "network error"⟩))⟩,
           [⟨(["a", "b", "c"] : List String).length,
             (["a", "b", "c"] : List String).length⟩]) ∧
    batchRemoveStudentsFromClassClient "c1"
        ((["a", "b", "c"] : List String).map JsVal.str) none =
      .ok (⟨["a", "b", "c"], []⟩,
           [⟨(["a", "b", "c"] : List String).length,
             (["a", "b", "c"] : List String).length⟩])) :=
  ⟨⟨by decide, by decide⟩,
    bulk_variants_all_or_nothing ["a", "b", "c"] "c1"
      ⟨none, some "network error"⟩ (by decide) (by decide)⟩

/-- C9: a non-positive concurrency option makes
`Math.min(concurrency, ids.length)` non-positive, so `Array.from` spawns
zero workers and the call resolves with `{success: [], failed: []}`, no
item attempted and no progress invocation, even though ids were supplied
and the payload is valid. -/
theorem batchUpdate_nonpositive_concurrency (ids : List JsVal)
    (u : Option Updates) (conc : Int) (outcome : String → Option JsError)
    (sched : List Nat) (hne : ids ≠ [])
    (hu : sanitizedCount (sanitize u) ≠ 0) (hc : conc ≤ 0) :
    batchUpdateStudentsClient ids u conc outcome sched = .ok (⟨[], []⟩, []) := by
  have _ := hne
  simp only [batchUpdateStudentsClient, if_neg hu]
  rw [numWorkers_nonpos ((dedup (ids.map jsString)).length) hc]
  have hinit : initState (dedup (ids.map jsString)) 0 =
      ⟨dedup (ids.map jsString), [], [], [], 0, []⟩ := by
    simp [initState]
  rw [hinit, runSteps_stuck outcome (dedup (ids.map jsString)).length sched _ rfl]

/-- C9, witness at ids = ["a"], concurrency = -2. -/
theorem batchUpdate_nonpositive_concurrency_witness :
    (([JsVal.str "a"] : List JsVal) ≠ [] ∧
      sanitizedCount (sanitize (some ⟨some (JsVal.num 3), none, []⟩)) ≠ 0 ∧
      (-2 : Int) ≤ 0) ∧
    batchUpdateStudentsClient [JsVal.str "a"]
      (some ⟨some (JsVal.num 3), none, []⟩) (-2) (fun _ => none) [0, 0] =
      .ok (⟨[], []⟩, []) :=
  ⟨⟨by decide, by decide, by decide⟩,
    batchUpdate_nonpositive_concurrency [JsVal.str "a"]
      (some ⟨some (JsVal.num 3), none, []⟩) (-2) (fun _ => none) [0, 0]
      (by decide) (by decide) (by decide)⟩

/-- C7: passing an id twice produces exactly the same result (BatchResult
and progress trace) as passing it once, and every progress invocation
carries total = the deduplicated count of ids, not the raw input length. -/
theorem batchUpdate_dedup_idempotent (l1 l2 : List JsVal) (x : JsVal)
    (hx : x ∈ l1) (u : Option Updates) (conc : Int)
    (outcome : String → Option JsError) (sched : List Nat) (l : List JsVal) :
    batchUpdateStudentsClient (l1 ++ x :: l2) u conc outcome sched =
      batchUpdateStudentsClient (l1 ++ l2) u conc outcome sched ∧
    (∀ p ∈ runTrace (batchUpdateStudentsClient l u conc outcome sched),
      p.total = (dedup (l.map jsString)).length) := by
  constructor
  · have hd : dedup ((l1 ++ x :: l2).map jsString) =
        dedup ((l1 ++ l2).map jsString) := by
      rw [List.map_append, List.map_cons, List.map_append]
      exact dedup_skip (List.mem_map_of_mem jsString hx)
    simp only [batchUpdateStudentsClient]
    rw [hd]
  · intro p hp
    by_cases hu : sanitizedCount (sanitize u) = 0
    · simp [batchUpdateStudentsClient, hu] at hp
    · simp only [batchUpdateStudentsClient, if_neg hu, runTrace_ok] at hp
      have hinv := runSteps_inv outcome (dedup (l.map jsString)) sched
        (initState (dedup (l.map jsString))
          ((min conc ((dedup (l.map jsString)).length : Int)).toNat))
        (initState_inv (dedup (l.map jsString))
          ((min conc ((dedup (l.map jsString)).length : Int)).toNat))
      rw [hinv.prog] at hp
      obtain ⟨i, _, rfl⟩ := List.mem_map.mp hp
      rfl

/-- C7, witness: "a" passed twice versus once, and totals over a run with a
duplicated input. -/
theorem batchUpdate_dedup_idempotent_witness :
    (JsVal.str "a" ∈ ([JsVal.str "a"] : List JsVal)) ∧
    (batchUpdateStudentsClient ([JsVal.str "a"] ++ JsVal.str "a" :: [JsVal.str "b"])
        (some ⟨some (JsVal.num 5), none, []⟩) 2 (fun _ => none) [0, 0] =
      batchUpdateStudentsClient ([JsVal.str "a"] ++ [JsVal.str "b"])
        (some ⟨some (JsVal.num 5), none, []⟩) 2 (fun _ => none) [0, 0] ∧
    (∀ p ∈ runTrace (batchUpdateStudentsClient
        [JsVal.str "a", JsVal.str "a", JsVal.str "b"]
        (some ⟨some (JsVal.num 5), none, []⟩) 2 (fun _ => none) [0, 0]),
      p.total = (dedup (([JsVal.str "a", JsVal.str "a", JsVal.str "b"] :
        List JsVal).map jsString)).length)) :=
  ⟨by decide,
    batchUpdate_dedup_idempotent [JsVal.str "a"] [JsVal.str "b"] (JsVal.str "a")
      (by decide) (some ⟨some (JsVal.num 5), none, []⟩) 2 (fun _ => none)
      [0, 0] [JsVal.str "a", JsVal.str "a", JsVal.str "b"]⟩

/-- C10: all three batch entry points convert every supplied id to a string
before deduplicating — two input ids equal after string conversion collapse
into one work item — and every id appearing in the BatchResult (and the
total counted in progress reports) comes from the string forms of the
input ids. -/
theorem batch_ids_stringified (l1 l2 : List JsVal) (b : JsVal)
    (hb : jsString b ∈ l1.map jsString) (u : Option Updates) (conc : Int)
    (outcome : String → Option JsError) (sched : List Nat)
    (l : List JsVal) (bo : Option JsError) (classId : String) :
    batchUpdateStudentsClient (l1 ++ b :: l2) u conc outcome sched =
      batchUpdateStudentsClient (l1 ++ l2) u conc outcome sched ∧
    batchDeleteStudentsClient (l1 ++ b :: l2) bo =
      batchDeleteStudentsClient (l1 ++ l2) bo ∧
    batchRemoveStudentsFromClassClient classId (l1 ++ b :: l2) bo =
      batchRemoveStudentsFromClassClient classId (l1 ++ l2) bo ∧
    (∀ id ∈ (batchResultOf (batchUpdateStudentsClient l u conc outcome
        sched)).success, ∃ x ∈ l, id = jsString x) ∧
    (∀ q ∈ (batchResultOf (batchUpdateStudentsClient l u conc outcome
        sched)).failed, ∃ x ∈ l, q.1 = jsString x) ∧
    (∀ id ∈ (batchResultOf (batchDeleteStudentsClient l bo)).success,
      ∃ x ∈ l, id = jsString x) ∧
    (∀ q ∈ (batchResultOf (batchDeleteStudentsClient l bo)).failed,
      ∃ x ∈ l, q.1 = jsString x) ∧
    (∀ id ∈ (batchResultOf (batchRemoveStudentsFromClassClient classId l
        bo)).success, ∃ x ∈ l, id = jsString x) ∧
    (∀ q ∈ (batchResultOf (batchRemoveStudentsFromClassClient classId l
        bo)).failed, ∃ x ∈ l, q.1 = jsString x) ∧
    (∀ p ∈ runTrace (batchDeleteStudentsClient l bo),
      p.total = (dedup (l.map jsString)).length) := by
  have hd : dedup ((l1 ++ b :: l2).map jsString) =
      dedup ((l1 ++ l2).map jsString) := by
    rw [List.map_append, List.map_cons, List.map_append]
    exact dedup_skip hb
  refine ⟨?_, ?_, ?_, ?_, ?_, ?_, ?_, ?_, ?_, ?_⟩
  · simp only [batchUpdateStudentsClient]
    rw [hd]
  · simp only [batchDeleteStudentsClient]
    rw [hd]
  · simp only [batchRemoveStudentsFromClassClient]
    rw [hd]
  · intro id hid
    by_cases hu : sanitizedCount (sanitize u) = 0
    · simp [batchUpdateStudentsClient, hu, batchResultOf] at hid
    · simp only [batchUpdateStudentsClient, if_neg hu, batchResultOf_ok] at hid
      have hinv := runSteps_inv outcome (dedup (l.map jsString)) sched
        (initState (dedup (l.map jsString))
          ((min conc ((dedup (l.map jsString)).length : Int)).toNat))
        (initState_inv (dedup (l.map jsString))
          ((min conc ((dedup (l.map jsString)).length : Int)).toNat))
      exact dedup_map_elem ((final_subset hinv).1 id hid)
  · intro q hq
    by_cases hu : sanitizedCount (sanitize u) = 0
    · simp [batchUpdateStudentsClient, hu, batchResultOf] at hq
    · simp only [batchUpdateStudentsClient, if_neg hu, batchResultOf_ok] at hq
      have hinv := runSteps_inv outcome (dedup (l.map jsString)) sched
        (initState (dedup (l.map jsString))
          ((min conc ((dedup (l.map jsString)).length : Int)).toNat))
        (initState_inv (dedup (l.map jsString))
          ((min conc ((dedup (l.map jsString)).length : Int)).toNat))
      exact dedup_map_elem ((final_subset hinv).2 q hq)
  · intro id hid
    by_cases h0 : (dedup (l.map jsString)).length = 0
    · simp [batchDeleteStudentsClient, h0, List.length_eq_zero.mp h0,
        batchResultOf] at hid
    · cases bo with
      | none =>
        simp only [batchDeleteStudentsClient, if_neg h0, batchResultOf_ok] at hid
        exact dedup_map_elem hid
      | some e =>
        simp only [batchDeleteStudentsClient, if_neg h0, batchResultOf_ok] at hid
        simp at hid
  · intro q hq
    by_cases h0 : (dedup (l.map jsString)).length = 0
    · simp [batchDeleteStudentsClient, h0, List.length_eq_zero.mp h0,
        batchResultOf] at hq
    · cases bo with
      | none =>
        simp only [batchDeleteStudentsClient, if_neg h0, batchResultOf_ok] at hq
        simp at hq
      | some e =>
        simp only [batchDeleteStudentsClient, if_neg h0, batchResultOf_ok] at hq
        obtain ⟨idq, hidq, rfl⟩ := List.mem_map.mp hq
        exact dedup_map_elem hidq
  · intro id hid
    by_cases h0 : (dedup (l.map jsString)).length = 0
    · simp [batchRemoveStudentsFromClassClient, h0, List.length_eq_zero.mp h0,
        batchResultOf] at hid
    · cases bo with
      | none =>
        simp only [batchRemoveStudentsFromClassClient, if_neg h0,
          batchResultOf_ok] at hid
        exact dedup_map_elem hid
      | some e =>
        simp only [batchRemoveStudentsFromClassClient, if_neg h0,
          batchResultOf_ok] at hid
        simp at hid
  · intro q hq
    by_cases h0 : (dedup (l.map jsString)).length = 0
    · simp [batchRemoveStudentsFromClassClient, h0, List.length_eq_zero.mp h0,
        batchResultOf] at hq
    · cases bo with
      | none =>
        simp only [batchRemoveStudentsFromClassClient, if_neg h0,
          batchResultOf_ok] at hq
        simp at hq
      | some e =>
        simp only [batchRemoveStudentsFromClassClient, if_neg h0,
          batchResultOf_ok] at hq
        obtain ⟨idq, hidq, rfl⟩ := List.mem_map.mp hq
        exact dedup_map_elem hidq
  · intro p hp
    by_cases h0 : (dedup (l.map jsString)).length = 0
    · simp [batchDeleteStudentsClient, h0, List.length_eq_zero.mp h0,
        runTrace] at hp
    · cases bo with
      | none =>
        simp only [batchDeleteStudentsClient, if_neg h0, runTrace_ok] at hp
        simp only [List.mem_singleton] at hp
        rw [hp]
      | some e =>
        simp only [batchDeleteStudentsClient, if_neg h0, runTrace_ok] at hp
        simp only [List.mem_singleton] at hp
        rw [hp]

/-- C10, witness: the number 5 and the string "5" collapse into one work
item, over a run that exercises the membership conclusions. -/
theorem batch_ids_stringified_witness :
    (jsString (JsVal.str "5") ∈ ([JsVal.num 5] : List JsVal).map jsString) ∧
    (batchUpdateStudentsClient ([JsVal.num 5] ++ JsVal.str "5" :: [])
        (some ⟨some (JsVal.num 7), none, []⟩) 1 (fun _ => none) [0] =
      batchUpdateStudentsClient ([JsVal.num 5] ++ [])
        (some ⟨some (JsVal.num 7), none, []⟩) 1 (fun _ => none) [0] ∧
    batchDeleteStudentsClient ([JsVal.num 5] ++ JsVal.str "5" :: []) none =
      batchDeleteStudentsClient ([JsVal.num 5] ++ []) none ∧
    batchRemoveStudentsFromClassClient "c1"
        ([JsVal.num 5] ++ JsVal.str "5" :: []) none =
      batchRemoveStudentsFromClassClient "c1" ([JsVal.num 5] ++ []) none ∧
    (∀ id ∈ (batchResultOf (batchUpdateStudentsClient
        [JsVal.num 5, JsVal.str "5"] (some ⟨some (JsVal.num 7), none, []⟩) 1
        (fun _ => none) [0])).success,
      ∃ x ∈ ([JsVal.num 5, JsVal.str "5"] : List JsVal), id = jsString x) ∧
    (∀ q ∈ (batchResultOf (batchUpdateStudentsClient
        [JsVal.num 5, JsVal.str "5"] (some ⟨some (JsVal.num 7), none, []⟩) 1
        (fun _ => none) [0])).failed,
      ∃ x ∈ ([JsVal.num 5, JsVal.str "5"] : List JsVal), q.1 = jsString x) ∧
    (∀ id ∈ (batchResultOf (batchDeleteStudentsClient
        [JsVal.num 5, JsVal.str "5"] none)).success,
      ∃ x ∈ ([JsVal.num 5, JsVal.str "5"] : List JsVal), id = jsString x) ∧
    (∀ q ∈ (batchResultOf (batchDeleteStudentsClient
        [JsVal.num 5, JsVal.str "5"] none)).failed,
      ∃ x ∈ ([JsVal.num 5, JsVal.str "5"] : List JsVal), q.1 = jsString x) ∧
    (∀ id ∈ (batchResultOf (batchRemoveStudentsFromClassClient "c1"
        [JsVal.num 5, JsVal.str "5"] none)).success,
      ∃ x ∈ ([JsVal.num 5, JsVal.str "5"] : List JsVal), id = jsString x) ∧
    (∀ q ∈ (batchResultOf (batchRemoveStudentsFromClassClient "c1"
        [JsVal.num 5, JsVal.str "5"] none)).failed,
      ∃ x ∈ ([JsVal.num 5, JsVal.str "5"] : List JsVal), q.1 = jsString x) ∧
    (∀ p ∈ runTrace (batchDeleteStudentsClient [JsVal.num 5, JsVal.str "5"] none),
      p.total = (dedup (([JsVal.num 5, JsVal.str "5"] :
        List JsVal).map jsString)).length)) :=
  ⟨by decide,
    batch_ids_stringified [JsVal.num 5] [] (JsVal.str "5") (by decide)
      (some ⟨some (JsVal.num 7), none, []⟩) 1 (fun _ => none) [0]
      [JsVal.num 5, JsVal.str "5"] none "c1"⟩

/-- C6, witness for the amended theorem. -/
theorem emptyBatch_resolves_empty_witness :
    sanitizedCount (sanitize (some ⟨some (JsVal.num 5), none, []⟩)) ≠ 0 ∧
    (batchUpdateStudentsClient [] (some ⟨some (JsVal.num 5), none, []⟩) 5
        (fun _ => none) [] = .ok (⟨[], []⟩, []) ∧
     batchDeleteStudentsClient [] none = .ok (⟨[], []⟩, []) ∧
     batchRemoveStudentsFromClassClient "c1" [] none = .ok (⟨[], []⟩, [])) :=
  ⟨by decide, emptyBatch_resolves_empty (some ⟨some (JsVal.num 5), none, []⟩)
    (by decide) 5 (fun _ => none) [] "c1" none⟩

end StudentBatch
